import Mathlib

/-!
Verification development for the dialectic message-bus daemon and client
connection manager (Rust sources: `src/server/src/ipc.rs`,
`src/server/src/daemon.rs`, `src/server/src/types.rs`).

The Rust code is shallowly embedded: the mutex-guarded
`IPCCommunicatorInner` state becomes an explicit record, each
lock-protected critical section becomes a pure state-transforming
function, I/O outcomes (socket connects, reads) are supplied as oracle
parameters, and `tokio::spawn`-ed tasks become explicitly scheduled
events.  `std::collections::HashMap` is modelled as an association list
with insert-replaces / remove / clear operations.
-/

namespace Dialectic

/-! ## Association-list model of `std::collections::HashMap<String, V>` -/

/-- Lookup of a key in the association-list map (first match; maps built
by `alInsert` are duplicate-free). Mirrors `HashMap::get`. -/
def alLookup {α : Type} (k : String) : List (String × α) → Option α
  | [] => none
  | p :: rest => if p.1 = k then some p.2 else alLookup k rest

/-- Removal of a key, mirroring `HashMap::remove`. -/
def alRemove {α : Type} (k : String) : List (String × α) → List (String × α)
  | [] => []
  | p :: rest => if p.1 = k then alRemove k rest else p :: alRemove k rest

/-- Insertion replacing any previous binding, mirroring `HashMap::insert`. -/
def alInsert {α : Type} (k : String) (v : α) (m : List (String × α)) : List (String × α) :=
  (k, v) :: alRemove k m

/-- Membership of a key, mirroring `HashMap::contains_key`. -/
def alContains {α : Type} (k : String) (m : List (String × α)) : Bool :=
  (alLookup k m).isSome

theorem alLookup_insert_self {α : Type} (k : String) (v : α) (m : List (String × α)) :
    alLookup k (alInsert k v m) = some v := by
  simp [alLookup, alInsert]

theorem alRemove_eq_self_of_not_contains {α : Type} {k : String} {m : List (String × α)}
    (h : alContains k m = false) : alRemove k m = m := by
  induction m with
  | nil => rfl
  | cons p rest ih =>
      simp only [alContains, alLookup] at h ih
      by_cases hk : p.1 = k
      · simp [hk] at h
      · simp only [alRemove, if_neg hk]
        rw [if_neg hk] at h
        rw [ih h]

theorem alRemove_insert_of_not_contains {α : Type} {k : String} (v : α)
    {m : List (String × α)} (h : alContains k m = false) :
    alRemove k (alInsert k v m) = m := by
  have hrm := alRemove_eq_self_of_not_contains h
  simp [alInsert, alRemove, hrm]

theorem alLookup_remove_self {α : Type} (k : String) (m : List (String × α)) :
    alLookup k (alRemove k m) = none := by
  induction m with
  | nil => rfl
  | cons p rest ih =>
      by_cases hk : p.1 = k
      · simpa [alRemove, hk] using ih
      · simpa [alRemove, alLookup, hk] using ih

theorem alRemove_length_le {α : Type} (k : String) (m : List (String × α)) :
    (alRemove k m).length ≤ m.length := by
  induction m with
  | nil => exact Nat.le_refl 0
  | cons p rest ih =>
      by_cases hk : p.1 = k
      · simp only [alRemove, if_pos hk]
        exact Nat.le_succ_of_le ih
      · simp only [alRemove, if_neg hk, List.length_cons]
        exact Nat.succ_le_succ ih

/-! ## Errors of the IPC layer (`IPCError` in `src/server/src/ipc.rs`) -/

/-- Errors of the client connection manager, mirroring `enum IPCError`.
Variants irrelevant to the claims (env var, serialization, write) are
kept for completeness of the shape but carry no payload detail beyond
what the claims need. -/
inductive IPCError where
  | missingEnvironmentVariable : IPCError
  | connectionFailed : String → IPCError
  | notConnected : IPCError
  | serializationError : IPCError
  | writeError : IPCError
  | timeout : IPCError
  | channelClosed : IPCError
deriving Repr, DecidableEq

/-! ## Connection-manager state (`IPCCommunicatorInner`) -/

/-- The mutex-guarded state of the client connection manager, mirroring
`struct IPCCommunicatorInner`.  The `oneshot::Sender` halves are
modelled as opaque slot identifiers (`Nat`); the write half of the
socket is likewise an opaque handle identifier. -/
structure InnerState where
  write_half : Option Nat
  pending_requests : List (String × Nat)
  pending_feedback : List (String × Nat)
  connected : Bool
  vscode_pid : Nat
  terminal_shell_pid : Nat
deriving Repr, DecidableEq

/-- Initial state built by `IPCCommunicator::new(vscode_pid, shell_pid)`:
no write half, empty maps, not connected. -/
def newInner (vscode_pid shell_pid : Nat) : InnerState :=
  { write_half := none
    pending_requests := []
    pending_feedback := []
    connected := false
    vscode_pid := vscode_pid
    terminal_shell_pid := shell_pid }

/-! ## Exponential backoff (`attempt_connection_with_backoff`) -/

/-- MAX_RETRIES constant from `attempt_connection_with_backoff`. -/
def MAX_RETRIES : Nat := 5

/-- BASE_DELAY_MS constant from `attempt_connection_with_backoff`. -/
def BASE_DELAY_MS : Nat := 100

/-- Sleep delay in milliseconds after failed attempt `attempt`, from
`Duration::from_millis(BASE_DELAY_MS * 2_u64.pow(attempt - 1))`. -/
def backoffDelayMs (attempt : Nat) : Nat :=
  BASE_DELAY_MS * 2 ^ (attempt - 1)

/-- Socket path the client connects to, from
`format!("/tmp/dialectic-daemon-{}.sock", self.vscode_pid)`. -/
def clientSocketPath (vscode_pid : Nat) : String :=
  "/tmp/dialectic-daemon-" ++ toString vscode_pid ++ ".sock"

/-- Result of running the `for attempt in 1..=MAX_RETRIES` connection
loop: the sleeps performed (in order) and, on success, the attempt
number that connected. -/
structure BackoffRun where
  sleepsMs : List Nat
  successAttempt : Option Nat
  connectCalls : Nat
deriving Repr, DecidableEq

/-- One unrolling of the connection loop of
`attempt_connection_with_backoff`, with the outcome of each
`UnixStream::connect` call supplied by the oracle `ok` (attempt number
to success flag).  `remaining` counts the attempts still allowed
(initially `MAX_RETRIES`), `attempt` is the 1-based attempt number.
On success the loop returns; on failure with attempts left it sleeps
`backoffDelayMs attempt` and retries; on failure of the final attempt
it returns failure (mirroring the `Err(e) if attempt < MAX_RETRIES`
versus final `Err(e)` arms). -/
def backoffLoop (ok : Nat → Bool) : Nat → Nat → BackoffRun
  | _, 0 => { sleepsMs := [], successAttempt := none, connectCalls := 0 }
  | attempt, r + 1 =>
    if ok attempt then
      { sleepsMs := [], successAttempt := some attempt, connectCalls := 1 }
    else if r = 0 then
      { sleepsMs := [], successAttempt := none, connectCalls := 1 }
    else
      let rest := backoffLoop ok (attempt + 1) r
      { sleepsMs := backoffDelayMs attempt :: rest.sleepsMs
        successAttempt := rest.successAttempt
        connectCalls := rest.connectCalls + 1 }

/-- The full backoff run of `attempt_connection_with_backoff`, starting
at attempt 1 with `MAX_RETRIES` attempts allowed. -/
def connectBackoff (ok : Nat → Bool) : BackoffRun :=
  backoffLoop ok 1 MAX_RETRIES

/-- Outcome of `attempt_connection_with_backoff` on the manager state:
on success the write half is stored, `connected` is flipped, and one
reader task is spawned for the new connection; on exhaustion the state
is unchanged and `ConnectionFailed { path, .. }` is returned. The fresh
write-half handle is supplied as `h`; `readersSpawned` counts the
`tokio::spawn(response_reader_task ..)` calls made. -/
structure AttemptOutcome where
  state : InnerState
  result : Except IPCError Unit
  sleepsMs : List Nat
  readersSpawned : Nat
deriving Repr

/-- State-level embedding of `attempt_connection_with_backoff` (lines
613-674 of `src/server/src/ipc.rs`), parameterised by the connect
oracle `ok` and the fresh handle `h`. -/
def attempt_connection_with_backoff (ok : Nat → Bool) (h : Nat) (st : InnerState) :
    AttemptOutcome :=
  let run := connectBackoff ok
  match run.successAttempt with
  | some _ =>
      { state := { st with write_half := some h, connected := true }
        result := .ok ()
        sleepsMs := run.sleepsMs
        readersSpawned := 1 }
  | none =>
      { state := st
        result := .error (.connectionFailed (clientSocketPath st.vscode_pid))
        sleepsMs := run.sleepsMs
        readersSpawned := 0 }

/-! ## Daemon socket claim (`run_daemon_with_prefix`) -/

/-- Kind of a failed `UnixListener::bind`, the only distinction the
daemon inspects (`e.kind() == std::io::ErrorKind::AddrInUse`). -/
inductive BindErrorKind where
  | addrInUse : BindErrorKind
  | other : BindErrorKind
deriving Repr, DecidableEq

/-- Daemon socket path from
`format!("/tmp/{}-{}.sock", socket_prefix, vscode_pid)`. -/
def daemonSocketPath (pfx : String) (vscode_pid : Nat) : String :=
  "/tmp/" ++ pfx ++ "-" ++ toString vscode_pid ++ ".sock"

/-- OS-level model of `UnixListener::bind`: binding fails with
`AddrInUse` exactly when the path is already bound by a live listener.
The set of currently bound paths is passed explicitly. -/
def bindUnixListener (bound : List String) (path : String) : Except BindErrorKind Unit :=
  if path ∈ bound then .error .addrInUse else .ok ()

/-- Result of the socket-claim phase of `run_daemon_with_prefix`
(lines 28-46 of `src/server/src/daemon.rs`): the bind is attempted
exactly once and any error is returned as-is (the function has no retry
loop; both error arms end in `return Err(e.into())`). `bindAttempts`
records how many `UnixListener::bind` calls were made. -/
structure DaemonClaim where
  result : Except BindErrorKind String
  bindAttempts : Nat
deriving Repr

/-- Claim phase of `run_daemon_with_prefix vscode_pid socket_prefix`:
computes the deterministic path and attempts the exclusive bind once.
On success the daemon proceeds to run the message bus on the claimed
path (not modelled further here); on failure it returns the error,
which is fatal to the attempting daemon. -/
def run_daemon_claim (bound : List String) (pfx : String) (vscode_pid : Nat) :
    DaemonClaim :=
  let path := daemonSocketPath pfx vscode_pid
  match bindUnixListener bound path with
  | .ok _ => { result := .ok path, bindAttempts := 1 }
  | .error k => { result := .error k, bindAttempts := 1 }

/-! ## Connection lifecycle: `ensure_connection`, `clear_connection_and_reconnect` -/

/-- Embedding of `IPCCommunicatorInner::ensure_connection` (lines
569-576 of `src/server/src/ipc.rs`): under the lock, if `connected`
is set the call returns `Ok(())` immediately (no sleeps, no connect
calls, no reader spawned); otherwise it runs
`attempt_connection_with_backoff`. -/
def ensure_connection (ok : Nat → Bool) (h : Nat) (st : InnerState) : AttemptOutcome :=
  if st.connected then
    { state := st, result := .ok (), sleepsMs := [], readersSpawned := 0 }
  else
    attempt_connection_with_backoff ok h st

/-- Cleanup phase of `clear_connection_and_reconnect` (lines 583-594):
clears `connected`, drops the write half, and clears
`pending_requests`. -/
def clearDeadConnectionState (st : InnerState) : InnerState :=
  { st with connected := false, write_half := none, pending_requests := [] }

/-- Outcome of `clear_connection_and_reconnect`: the resulting state,
the orphaned-request count that the cleanup logs
(`warn!("Cleaning up {} orphaned pending requests", orphaned_count)`),
the sleeps of the embedded reconnection attempt, and the number of
reader tasks spawned by it. -/
structure ClearOutcome where
  state : InnerState
  orphanCountLogged : Nat
  reconnectResult : Except IPCError Unit
  sleepsMs : List Nat
  readersSpawned : Nat
deriving Repr

/-- Embedding of `IPCCommunicatorInner::clear_connection_and_reconnect`
(lines 580-606 of `src/server/src/ipc.rs`), the reader task's "parting
gift": under one lock acquisition it clears the dead connection state,
evicts every pending request slot (logging the count), and immediately
runs `attempt_connection_with_backoff` for a fresh connection.  Errors
of the reconnection attempt are only logged, never propagated. -/
def clear_connection_and_reconnect (ok : Nat → Bool) (h : Nat) (st : InnerState) :
    ClearOutcome :=
  let cleared := clearDeadConnectionState st
  let att := attempt_connection_with_backoff ok h cleared
  { state := att.state
    orphanCountLogged := st.pending_requests.length
    reconnectResult := att.result
    sleepsMs := att.sleepsMs
    readersSpawned := att.readersSpawned }

/-! ## Writing: `write_message` and the public send operations -/

/-- Embedding of `IPCCommunicator::write_message` (lines 543-563):
with the lock held, if a write half is present the serialized line plus
a newline delimiter is written and `Ok(())` returned; otherwise the
call fails with `IPCError::NotConnected`. -/
def write_message (st : InnerState) : Except IPCError Unit :=
  match st.write_half with
  | some _ => .ok ()
  | none => .error .notConnected

/-- Embedding of `IPCCommunicator::send_message_without_reply`
composed with the bodies of `send_marco` / `send_polo` /
`send_goodbye` / `send_create_synthetic_pr` / the IPC leg of
`send_log` in non-test mode: each of these serializes its message and
calls `write_message` directly, without any prior call to
`ensure_connection`. -/
def send_message_without_reply (st : InnerState) : Except IPCError Unit :=
  write_message st

/-- Write phase of `present_review` / `get_selection` in non-test mode:
these call `ensure_connection` first and only reach `write_message`
when it returned `Ok` (the `?` operator propagates its error).  The
returned pair is the state after the ensure step and the overall
result as seen by the caller. -/
def ensure_then_write (ok : Nat → Bool) (h : Nat) (st : InnerState) :
    InnerState × Except IPCError Unit :=
  let ens := ensure_connection ok h st
  match ens.result with
  | .error e => (ens.state, .error e)
  | .ok _ => (ens.state, write_message ens.state)

/-! ## Lemmas about the backoff loop -/

theorem backoffLoop_connectCalls_le (ok : Nat → Bool) :
    ∀ r a, (backoffLoop ok a r).connectCalls ≤ r := by
  intro r
  induction r with
  | zero => intro a; simp [backoffLoop]
  | succ r ih =>
      intro a
      by_cases hok : ok a
      · simp [backoffLoop, hok]
      · by_cases hr : r = 0
        · simp [backoffLoop, hok, hr]
        · simp only [backoffLoop, hok, if_false, if_neg hr, Bool.false_eq_true]
          exact Nat.succ_le_succ (ih (a + 1))

theorem backoffLoop_sleep_getD (ok : Nat → Bool) :
    ∀ r a i, i < (backoffLoop ok a r).sleepsMs.length →
      (backoffLoop ok a r).sleepsMs.getD i 0 = backoffDelayMs (a + i) := by
  intro r
  induction r with
  | zero =>
      intro a i hi
      simp [backoffLoop] at hi
  | succ r ih =>
      intro a i hi
      by_cases hok : ok a
      · simp [backoffLoop, hok] at hi
      · by_cases hr : r = 0
        · simp [backoffLoop, hok, hr] at hi
        · have hstep : (backoffLoop ok a (r + 1)).sleepsMs
              = backoffDelayMs a :: (backoffLoop ok (a + 1) r).sleepsMs := by
            simp [backoffLoop, hok, hr]
          rw [hstep] at hi ⊢
          cases i with
          | zero => simp
          | succ i =>
              simp only [List.getD_cons_succ]
              have := ih (a + 1) i (by simpa using Nat.lt_of_succ_lt_succ hi)
              rw [this]
              congr 1
              omega

theorem backoffLoop_all_fail (ok : Nat → Bool)
    (hf : ∀ k, 1 ≤ k → k ≤ 5 → ok k = false) :
    connectBackoff ok =
      { sleepsMs := [100, 200, 400, 800], successAttempt := none, connectCalls := 5 } := by
  have h1 : ok 1 = false := hf 1 (by decide) (by decide)
  have h2 : ok 2 = false := hf 2 (by decide) (by decide)
  have h3 : ok 3 = false := hf 3 (by decide) (by decide)
  have h4 : ok 4 = false := hf 4 (by decide) (by decide)
  have h5 : ok 5 = false := hf 5 (by decide) (by decide)
  simp [connectBackoff, MAX_RETRIES, backoffLoop, h1, h2, h3, h4, h5,
    backoffDelayMs, BASE_DELAY_MS]

/-! ## Claim C5: bounded exponential backoff -/

/-- C5: when not connected, the connection loop makes at most
`MAX_RETRIES = 5` connect attempts; the sleep performed after failed
attempt `k` (the `i`-th sleep, `k = i + 1`) is exactly
`100 * 2 ^ (k - 1) = 100 * 2 ^ i` milliseconds, a pure function of the
attempt number; and if all five attempts fail the loop makes exactly
five attempts, sleeps `[100, 200, 400, 800]`, and surfaces
`IPCError::ConnectionFailed` carrying the socket path, retrying no
further. -/
theorem backoff_bounded_exponential (ok : Nat → Bool) (h : Nat) (st : InnerState) :
    (connectBackoff ok).connectCalls ≤ 5 ∧
    (∀ i, i < (connectBackoff ok).sleepsMs.length →
      (connectBackoff ok).sleepsMs.getD i 0 = 100 * 2 ^ i) ∧
    ((∀ k, 1 ≤ k → k ≤ 5 → ok k = false) →
      (connectBackoff ok).connectCalls = 5 ∧
      (connectBackoff ok).sleepsMs = [100, 200, 400, 800] ∧
      (attempt_connection_with_backoff ok h st).result =
        .error (.connectionFailed (clientSocketPath st.vscode_pid))) := by
  refine ⟨backoffLoop_connectCalls_le ok MAX_RETRIES 1, ?_, ?_⟩
  · intro i hi
    have hi' : i < (backoffLoop ok 1 MAX_RETRIES).sleepsMs.length := hi
    have := backoffLoop_sleep_getD ok MAX_RETRIES 1 i hi'
    have harg : 1 + i - 1 = i := by omega
    simpa [connectBackoff, backoffDelayMs, BASE_DELAY_MS, harg] using this
  · intro hf
    have hrun := backoffLoop_all_fail ok hf
    exact ⟨by rw [hrun], by rw [hrun], by simp [attempt_connection_with_backoff, hrun]⟩

/-- Witness for C5: with an oracle that always fails, the loop makes
exactly five attempts, performs the doubling sleeps and surfaces the
typed connection error with the socket path for pid 7. -/
theorem backoff_bounded_exponential_witness :
    (connectBackoff (fun _ => false)).connectCalls ≤ 5 ∧
    (attempt_connection_with_backoff (fun _ => false) 3 (newInner 7 9)).result =
      .error (.connectionFailed "/tmp/dialectic-daemon-7.sock") := by
  refine ⟨(backoff_bounded_exponential (fun _ => false) 3 (newInner 7 9)).1, ?_⟩
  have := ((backoff_bounded_exponential (fun _ => false) 3 (newInner 7 9)).2.2
    (fun k _ _ => rfl)).2.2
  rw [this]
  rfl

/-! ## Claim C2: exclusive socket claim -/

/-- C2: while one daemon holds the socket path for an owner id (the
path is in the bound set), a second claim attempt through
`run_daemon_with_prefix` for the same owner id and path fails with an
error distinguishable as `AddrInUse`, makes exactly one bind attempt
(no retry), and is fatal: the function returns the error. -/
theorem daemon_second_claim_conflict (bound : List String) (pfx : String)
    (vscode_pid : Nat) (h : daemonSocketPath pfx vscode_pid ∈ bound) :
    (run_daemon_claim bound pfx vscode_pid).result = .error .addrInUse ∧
    (run_daemon_claim bound pfx vscode_pid).bindAttempts = 1 := by
  simp [run_daemon_claim, bindUnixListener, h]

/-- Witness for C2: a first daemon holds the path for owner id 42; the
second claim fails with `AddrInUse` after one bind attempt. -/
theorem daemon_second_claim_conflict_witness :
    daemonSocketPath "dialectic-daemon" 42 ∈ [daemonSocketPath "dialectic-daemon" 42] ∧
    (run_daemon_claim [daemonSocketPath "dialectic-daemon" 42] "dialectic-daemon" 42).result
      = .error .addrInUse := by
  refine ⟨List.mem_singleton.mpr rfl, ?_⟩
  exact (daemon_second_claim_conflict _ _ _ (List.mem_singleton.mpr rfl)).1

/-! ## Claim C4: the reader task's parting gift -/

/-- C4: the disconnect cleanup clears the `connected` flag, drops the
stale write handle, removes every pending request slot (logging the
orphan count), and runs a reconnection attempt in the same background
task; when that reconnection succeeds, any subsequent
`ensure_connection` returns `Ok` immediately: same state, no sleeps,
no connect attempt and no extra reader task. -/
theorem parting_gift_cleanup_and_fast_ensure (ok : Nat → Bool) (h : Nat) (st : InnerState) :
    (clearDeadConnectionState st).connected = false ∧
    (clearDeadConnectionState st).write_half = none ∧
    (clearDeadConnectionState st).pending_requests = [] ∧
    (clear_connection_and_reconnect ok h st).orphanCountLogged
      = st.pending_requests.length ∧
    ((clear_connection_and_reconnect ok h st).reconnectResult = .ok () →
      (clear_connection_and_reconnect ok h st).state.connected = true ∧
      ∀ ok2 h2, ensure_connection ok2 h2 (clear_connection_and_reconnect ok h st).state =
        { state := (clear_connection_and_reconnect ok h st).state
          result := .ok ()
          sleepsMs := []
          readersSpawned := 0 }) := by
  refine ⟨rfl, rfl, rfl, rfl, ?_⟩
  intro hok
  unfold clear_connection_and_reconnect attempt_connection_with_backoff at hok ⊢
  cases hsucc : (connectBackoff ok).successAttempt with
  | none => simp [hsucc] at hok
  | some a =>
      simp only [hsucc]
      refine ⟨by trivial, ?_⟩
      intro ok2 h2
      simp [ensure_connection]

/-- Concrete connected state with two in-flight requests, used by the
witness below. -/
def connectedTwoReqs : InnerState :=
  { newInner 7 9 with
    connected := true
    write_half := some 4
    pending_requests := [("a", 1), ("b", 2)] }

/-- Witness for C4: with an always-succeeding connect oracle, the
cleanup of a connected state with two pending requests logs the two
orphans and a follow-up `ensure_connection` is an immediate no-op. -/
theorem parting_gift_cleanup_and_fast_ensure_witness :
    (clear_connection_and_reconnect (fun _ => true) 5 connectedTwoReqs).reconnectResult
      = .ok () ∧
    (clear_connection_and_reconnect (fun _ => true) 5 connectedTwoReqs).orphanCountLogged
      = 2 ∧
    (clear_connection_and_reconnect (fun _ => true) 5 connectedTwoReqs).state.connected
      = true := by
  have main := parting_gift_cleanup_and_fast_ensure (fun _ => true) 5 connectedTwoReqs
  have hok : (clear_connection_and_reconnect (fun _ => true) 5
      connectedTwoReqs).reconnectResult = .ok () := rfl
  exact ⟨hok, main.2.2.2.1, (main.2.2.2.2 hok).1⟩

/-! ## Claim C10: frame condition of the disconnect cleanup -/

/-- Registration performed by `wait_for_user_feedback` (line 420 of
`src/server/src/ipc.rs`): the feedback sender is inserted under the
review id. -/
def register_feedback (rid : String) (slot : Nat) (st : InnerState) : InnerState :=
  { st with pending_feedback := alInsert rid slot st.pending_feedback }

/-- Helper for the frame theorem: the cleanup keeps the binding just
registered for a review id. -/
theorem parting_gift_frame_feedback_aux (ok : Nat → Bool) (h : Nat) (rid : String)
    (slot : Nat) (st : InnerState) :
    alLookup rid
      (clear_connection_and_reconnect ok h (register_feedback rid slot st)).state.pending_feedback
      = some slot := by
  have hfeed : (clear_connection_and_reconnect ok h (register_feedback rid slot st)).state.pending_feedback
      = (register_feedback rid slot st).pending_feedback := by
    unfold clear_connection_and_reconnect attempt_connection_with_backoff
    cases hsucc : (connectBackoff ok).successAttempt <;> simp [hsucc, clearDeadConnectionState]
  rw [hfeed]
  exact alLookup_insert_self rid slot st.pending_feedback

/-- C10: the disconnect cleanup mutates only `connected`, `write_half`
and `pending_requests`; `pending_feedback`, `vscode_pid` and
`terminal_shell_pid` are untouched, so any feedback waiter registered
via `wait_for_user_feedback` remains registered across a
disconnect/reconnect cycle. -/
theorem parting_gift_frame_feedback (ok : Nat → Bool) (h : Nat) (st : InnerState) :
    (clear_connection_and_reconnect ok h st).state.pending_feedback
      = st.pending_feedback ∧
    (clear_connection_and_reconnect ok h st).state.vscode_pid = st.vscode_pid ∧
    (clear_connection_and_reconnect ok h st).state.terminal_shell_pid
      = st.terminal_shell_pid ∧
    (∀ rid slot, alLookup rid st.pending_feedback = some slot →
      alLookup rid (clear_connection_and_reconnect ok h st).state.pending_feedback
        = some slot) ∧
    (∀ rid slot,
      alLookup rid
        (clear_connection_and_reconnect ok h (register_feedback rid slot st)).state.pending_feedback
        = some slot) := by
  have hfeed : (clear_connection_and_reconnect ok h st).state.pending_feedback
      = st.pending_feedback := by
    unfold clear_connection_and_reconnect attempt_connection_with_backoff
    cases hsucc : (connectBackoff ok).successAttempt <;> simp [hsucc, clearDeadConnectionState]
  have hpid : (clear_connection_and_reconnect ok h st).state.vscode_pid = st.vscode_pid := by
    unfold clear_connection_and_reconnect attempt_connection_with_backoff
    cases hsucc : (connectBackoff ok).successAttempt <;> simp [hsucc, clearDeadConnectionState]
  have hshell : (clear_connection_and_reconnect ok h st).state.terminal_shell_pid
      = st.terminal_shell_pid := by
    unfold clear_connection_and_reconnect attempt_connection_with_backoff
    cases hsucc : (connectBackoff ok).successAttempt <;> simp [hsucc, clearDeadConnectionState]
  refine ⟨hfeed, hpid, hshell, ?_, ?_⟩
  · intro rid slot hreg
    rw [hfeed]
    exact hreg
  · intro rid slot
    exact parting_gift_frame_feedback_aux ok h rid slot st

/-- Concrete connected state with one feedback waiter, used by the
witness below. -/
def connectedOneWaiter : InnerState :=
  { newInner 7 9 with
    connected := true
    write_half := some 4
    pending_feedback := [("r7", 3)] }

/-- Witness for C10: a concrete feedback waiter for review id "r7"
survives a concrete disconnect/reconnect cycle. -/
theorem parting_gift_frame_feedback_witness :
    alLookup "r7" connectedOneWaiter.pending_feedback = some 3 ∧
    alLookup "r7"
      (clear_connection_and_reconnect (fun _ => true) 5
        connectedOneWaiter).state.pending_feedback = some 3 := by
  refine ⟨by simp [connectedOneWaiter, newInner, alLookup], ?_⟩
  exact (parting_gift_frame_feedback (fun _ => true) 5 connectedOneWaiter).2.2.2.1
    "r7" 3 (by simp [connectedOneWaiter, newInner, alLookup])

/-! ## JSON values and the wire envelope

The envelope structure follows the construction sites in
`src/server/src/ipc.rs` (`IPCMessage { shell_pid, message_type, payload,
id }`); the `types.rs` in the snapshot predates the `shell_pid` field
and the `CreateSyntheticPr` / `UserFeedback` variants that `ipc.rs`
matches on, so those are taken from their uses in `ipc.rs`.  `serde`
renames `message_type` to `"type"` and serializes the variant names in
snake_case. -/

/-- JSON values as used on the wire (`serde_json::Value` restricted to
the fragment the envelopes exercise; numbers are integers here). -/
inductive Json where
  | null : Json
  | bool : Bool → Json
  | num : Int → Json
  | str : String → Json
  | arr : List Json → Json
  | obj : List (String × Json) → Json
deriving Repr

/-- Message kinds, mirroring `enum IPCMessageType`. -/
inductive IPCMessageType where
  | presentReview
  | log
  | getSelection
  | marco
  | polo
  | goodbye
  | response
  | resolveSymbolByName
  | findAllReferences
  | createSyntheticPr
  | userFeedback
deriving Repr, DecidableEq

/-- Wire name of each message kind under
`#[serde(rename_all = "snake_case")]`. -/
def kindWireName : IPCMessageType → String
  | .presentReview => "present_review"
  | .log => "log"
  | .getSelection => "get_selection"
  | .marco => "marco"
  | .polo => "polo"
  | .goodbye => "goodbye"
  | .response => "response"
  | .resolveSymbolByName => "resolve_symbol_by_name"
  | .findAllReferences => "find_all_references"
  | .createSyntheticPr => "create_synthetic_pr"
  | .userFeedback => "user_feedback"

/-- The wire envelope, mirroring `struct IPCMessage` as constructed in
`ipc.rs`: addressing tag (`shell_pid`), kind (`message_type`, wire name
`"type"`), arbitrary payload, and correlation id. -/
structure IPCMessage where
  shell_pid : Nat
  message_type : IPCMessageType
  payload : Json
  id : String
deriving Repr

/-- Response payload, mirroring `struct ResponsePayload` in
`src/server/src/types.rs`. -/
structure ResponsePayload where
  success : Bool
  error : Option String
  data : Option Json
deriving Repr

/-- Field lookup in a JSON object (serde maps have unique keys). -/
def jsonField (fs : List (String × Json)) (k : String) : Option Json :=
  alLookup k fs

/-- Deserialization of `Option<String>` fields from an optional JSON
value: a missing field or `null` is `None`, a string is `Some`, any
other value is a type error. -/
def parseOptString : Option Json → Option (Option String)
  | none => some none
  | some .null => some none
  | some (.str s) => some (some s)
  | some _ => none

/-- Deserialization of `Option<Value>` fields: a missing field or
`null` is `None`, anything else is `Some`. -/
def parseOptValue : Option Json → Option (Option Json)
  | none => some none
  | some .null => some none
  | some v => some (some v)

/-- Deserialization of `ResponsePayload` from a JSON value, mirroring
`serde_json::from_value::<ResponsePayload>`: `success` must be present
and boolean, `error` and `data` are optional. -/
def parseResponsePayload : Json → Option ResponsePayload
  | .obj fs =>
      match jsonField fs "success", parseOptString (jsonField fs "error"),
        parseOptValue (jsonField fs "data") with
      | some (.bool b), some e, some d => some { success := b, error := e, data := d }
      | _, _, _ => none
  | _ => none

/-- Effects the reader task's dispatcher can produce besides its state
update: resolving a request slot with a response payload (the
`sender.send(response_payload)` on a `pending_requests` entry),
resolving a feedback slot (the send on a `pending_feedback` entry),
or sending a Polo reply to a Marco broadcast. -/
inductive Effect where
  | resolveRequest : Nat → ResponsePayload → Effect
  | resolveFeedback : Nat → String → Effect
  | sendPolo : Nat → Effect
deriving Repr

/-- Review-id extraction from a user-feedback payload.  Modelled from
the spec: `UserFeedbackPayload` is absent from the `types.rs` in the
snapshot (it predates the feature); per the spec a feedback message
carries the application-level review id that keys the feedback map. -/
def parseFeedbackReviewId : Json → Option String
  | .obj fs =>
      match jsonField fs "review_id" with
      | some (.str s) => some s
      | _ => none
  | _ => none

/-- Embedding of `IPCCommunicator::handle_incoming_message` (lines
739-847 of `src/server/src/ipc.rs`) after the line has parsed as an
`IPCMessage`.  A `Response` kind resolves (and removes) the matching
`pending_requests` slot, and is silently ignored when the id matches no
pending request or the payload does not parse; a `Marco` kind triggers
a Polo reply carrying the stored shell pid; a `UserFeedback` kind
resolves (and removes) the matching `pending_feedback` slot; every
other kind is ignored. -/
def handle_incoming_message (st : InnerState) (m : IPCMessage) :
    InnerState × List Effect :=
  match m.message_type with
  | .response =>
      match parseResponsePayload m.payload with
      | none => (st, [])
      | some p =>
          match alLookup m.id st.pending_requests with
          | some slot =>
              ({ st with pending_requests := alRemove m.id st.pending_requests },
                [.resolveRequest slot p])
          | none => (st, [])
  | .marco => (st, [.sendPolo st.terminal_shell_pid])
  | .userFeedback =>
      match parseFeedbackReviewId m.payload with
      | none => (st, [])
      | some rid =>
          match alLookup rid st.pending_feedback with
          | some slot =>
              ({ st with pending_feedback := alRemove rid st.pending_feedback },
                [.resolveFeedback slot rid])
          | none => (st, [])
  | _ => (st, [])

/-- Registration step of `send_message_with_reply` (lines 475-480):
the fresh oneshot sender is stored under the message id. -/
def register_request (id : String) (slot : Nat) (st : InnerState) : InnerState :=
  { st with pending_requests := alInsert id slot st.pending_requests }

/-! ## Claim C1: request/response correlation -/

/-- C1: when a request slot is registered under a fresh id and a
Response-kind envelope with that id arrives before the timeout (so the
slot is still registered), the dispatcher resolves exactly that slot
with exactly the `ResponsePayload` parsed from the envelope, removing
the entry; and a Response whose id matches no pending request resolves
no slot and leaves the state unchanged. -/
theorem response_correlation (st : InnerState) (m : IPCMessage) (slot : Nat)
    (p : ResponsePayload)
    (hkind : m.message_type = .response)
    (hpay : parseResponsePayload m.payload = some p) :
    (alContains m.id st.pending_requests = false →
      handle_incoming_message st m = (st, []) ∧
      handle_incoming_message (register_request m.id slot st) m =
        (st, [.resolveRequest slot p])) ∧
    (∀ s, alLookup m.id st.pending_requests = some s →
      handle_incoming_message st m =
        ({ st with pending_requests := alRemove m.id st.pending_requests },
          [.resolveRequest s p])) := by
  constructor
  · intro hfresh
    constructor
    · unfold handle_incoming_message
      rw [hkind]
      simp only [hpay]
      have : alLookup m.id st.pending_requests = none := by
        simp only [alContains, Option.isSome] at hfresh
        cases hlk : alLookup m.id st.pending_requests with
        | none => rfl
        | some v => rw [hlk] at hfresh; simp at hfresh
      simp [this]
    · unfold handle_incoming_message
      rw [hkind]
      simp only [hpay]
      rw [show alLookup m.id (register_request m.id slot st).pending_requests = some slot from
        alLookup_insert_self m.id slot st.pending_requests]
      have : alRemove m.id (register_request m.id slot st).pending_requests
          = st.pending_requests := alRemove_insert_of_not_contains slot hfresh
      simp only [register_request] at this ⊢
      rw [this]
  · intro s hs
    unfold handle_incoming_message
    rw [hkind]
    simp only [hpay]
    rw [hs]

/-- Witness for C1: a concrete registered request "r1" is resolved with
exactly the payload of a concrete Response envelope, and an unknown id
"zz" resolves nothing. -/
theorem response_correlation_witness :
    alContains "r1" (newInner 7 9).pending_requests = false ∧
    handle_incoming_message (register_request "r1" 6 (newInner 7 9))
        { shell_pid := 9
          message_type := .response
          payload := Json.obj [("success", Json.bool true)]
          id := "r1" } =
      (newInner 7 9, [.resolveRequest 6 { success := true, error := none, data := none }]) ∧
    handle_incoming_message (newInner 7 9)
        { shell_pid := 9
          message_type := .response
          payload := Json.obj [("success", Json.bool true)]
          id := "zz" } = (newInner 7 9, []) := by
  have main1 := response_correlation (newInner 7 9)
    { shell_pid := 9
      message_type := .response
      payload := Json.obj [("success", Json.bool true)]
      id := "r1" } 6 { success := true, error := none, data := none } rfl rfl
  have main2 := response_correlation (newInner 7 9)
    { shell_pid := 9
      message_type := .response
      payload := Json.obj [("success", Json.bool true)]
      id := "zz" } 6 { success := true, error := none, data := none } rfl rfl
  exact ⟨rfl, (main1.1 rfl).2, (main2.1 rfl).1⟩

/-! ## Claim C3: slot cleanup on timeout

The timeout arm of `send_message_with_reply` (lines 493-505 of
`src/server/src/ipc.rs`) runs, in code order: store the oneshot sender
under the message id, write the line, and — when the 5s timeout fires —
`tokio::spawn` a cleanup task that removes the map entry, then surface
`IPCError::Timeout`.  The spawned task body runs at the scheduler's
discretion: possibly before, possibly after the error reaches the
caller.  Both interleavings are modelled as explicit schedules. -/

/-- Atomic events of the timeout path of `send_message_with_reply`:
the slot registration, the socket write, the `tokio::spawn` of the
cleanup task, the cleanup task body actually running
(`pending_requests.remove(&message_id)`), and the `Timeout` error
reaching the caller. -/
inductive TimeoutEvent where
  | insertSlot
  | writeLine
  | spawnCleanup
  | runCleanup
  | surfaceTimeout
deriving Repr, DecidableEq

/-- The two valid interleavings of the spawned cleanup with the
surfacing of the error: the main task's order is fixed
(insert, write, spawn, surface) and the spawned body may run at any
point after its spawn. -/
def timeoutSchedule (cleanupBeforeSurface : Bool) : List TimeoutEvent :=
  if cleanupBeforeSurface then
    [.insertSlot, .writeLine, .spawnCleanup, .runCleanup, .surfaceTimeout]
  else
    [.insertSlot, .writeLine, .spawnCleanup, .surfaceTimeout, .runCleanup]

/-- Effect of each event on the `pending_requests` map. -/
def applyTimeoutEvent (id : String) (slot : Nat) (m : List (String × Nat)) :
    TimeoutEvent → List (String × Nat)
  | .insertSlot => alInsert id slot m
  | .runCleanup => alRemove id m
  | _ => m

/-- The `pending_requests` map after a sequence of timeout-path events. -/
def runTimeoutEvents (id : String) (slot : Nat) (init : List (String × Nat))
    (evs : List TimeoutEvent) : List (String × Nat) :=
  evs.foldl (applyTimeoutEvent id slot) init

/-- The map state at the moment the `Timeout` error surfaces: the fold
over the schedule up to (excluding) `surfaceTimeout`. -/
def mapWhenSurfaced (id : String) (slot : Nat) (init : List (String × Nat))
    (cleanupBeforeSurface : Bool) : List (String × Nat) :=
  runTimeoutEvents id slot init
    ((timeoutSchedule cleanupBeforeSurface).takeWhile
      (fun e => !(e == TimeoutEvent.surfaceTimeout)))

/-- Counterexample to C3 as stated: under the valid schedule in which
the spawned cleanup body runs only after the error has surfaced (the
guaranteed order on a current-thread runtime, since the removal is
`tokio::spawn`-ed, not awaited), the entry for request id "r1" is still
in the map at the moment the `Timeout` error reaches the caller. -/
theorem timeout_entry_not_removed_before_surface :
    mapWhenSurfaced "r1" 0 [] false = [("r1", 0)] ∧
    alContains "r1" (mapWhenSurfaced "r1" 0 [] false) = true := by
  decide

/-- C3 (amended): on timeout the cleanup is spawned before the
`Timeout` error is surfaced (in every valid schedule `spawnCleanup`
precedes `surfaceTimeout`), and once the in-flight call including its
spawned cleanup task has completed, the map no longer holds the fresh
request id: it is restored exactly to its pre-call contents, hence to
its pre-call count.  The removal itself, however, may run after the
error has surfaced. -/
theorem timeout_cleanup_eventual (b : Bool) (id : String) (slot : Nat)
    (init : List (String × Nat)) (hfresh : alContains id init = false) :
    TimeoutEvent.spawnCleanup ∈
      ((timeoutSchedule b).takeWhile (fun e => !(e == TimeoutEvent.surfaceTimeout))) ∧
    runTimeoutEvents id slot init (timeoutSchedule b) = init ∧
    alContains id (runTimeoutEvents id slot init (timeoutSchedule b)) = false ∧
    (runTimeoutEvents id slot init (timeoutSchedule b)).length = init.length := by
  have hrun : runTimeoutEvents id slot init (timeoutSchedule b) = init := by
    cases b <;>
      simp [timeoutSchedule, runTimeoutEvents, applyTimeoutEvent,
        alRemove_insert_of_not_contains slot hfresh]
  refine ⟨?_, hrun, ?_, by rw [hrun]⟩
  · cases b <;> decide
  · rw [hrun]; exact hfresh

/-- Witness for C3 (amended claim) at a concrete pre-call map. -/
theorem timeout_cleanup_eventual_witness :
    alContains "r1" [("x", (5 : Nat))] = false ∧
    runTimeoutEvents "r1" 0 [("x", 5)] (timeoutSchedule false) = [("x", 5)] := by
  refine ⟨by decide, ?_⟩
  exact (timeout_cleanup_eventual false "r1" 0 [("x", 5)] (by decide)).2.1

/-! ## Claim C7: the connected / write-half / reader invariant

The operations that touch `connected` and `write_half` are each one
lock-protected critical section: a successful
`attempt_connection_with_backoff` (sets both, spawns one reader) and
`clear_connection_and_reconnect` (clears both, then reconnects inside
the same critical section).  The reader task is decoupled from them: on
read error or EOF it terminates after `tokio::spawn`-ing the cleanup,
so between its termination and the moment the spawned cleanup acquires
the lock, `connected` is still true while no reader task is running.
The machine below makes these three occurrences explicit events. -/

/-- Global state of the connection manager plus the tasks acting on
it: the inner (lock-guarded) state, the number of reader tasks
currently running, and the number of spawned-but-not-yet-run
`clear_connection_and_reconnect` tasks. -/
structure ConnState where
  inner : InnerState
  readers : Nat
  pendingClear : Nat
deriving Repr, DecidableEq

/-- Atomic events of the connection lifecycle: a caller's
`ensure_connection` critical section, the reader task observing read
error / EOF (terminating and spawning the cleanup), and the spawned
cleanup's critical section running. -/
inductive ConnEvent where
  | ensureConn : (Nat → Bool) → Nat → ConnEvent
  | readerDies : ConnEvent
  | runClear : (Nat → Bool) → Nat → ConnEvent

/-- Transition of one event; `none` when the event is not enabled
(a reader can only die while running, a cleanup only runs if spawned). -/
def stepConn (s : ConnState) : ConnEvent → Option ConnState
  | .ensureConn ok h =>
      let att := ensure_connection ok h s.inner
      some { inner := att.state
             readers := s.readers + att.readersSpawned
             pendingClear := s.pendingClear }
  | .readerDies =>
      if s.readers = 0 then none
      else some { s with readers := s.readers - 1, pendingClear := s.pendingClear + 1 }
  | .runClear ok h =>
      if s.pendingClear = 0 then none
      else
        let c := clear_connection_and_reconnect ok h s.inner
        some { inner := c.state
               readers := s.readers + c.readersSpawned
               pendingClear := s.pendingClear - 1 }

/-- Initial machine state for a fresh `IPCCommunicator::new`. -/
def initConnState (vscode_pid shell_pid : Nat) : ConnState :=
  { inner := newInner vscode_pid shell_pid, readers := 0, pendingClear := 0 }

/-- Execution of a list of events (all must be enabled). -/
def runConn : ConnState → List ConnEvent → Option ConnState
  | s, [] => some s
  | s, e :: evs =>
      match stepConn s e with
      | none => none
      | some s2 => runConn s2 evs

/-- Invariant of all reachable states: `connected` mirrors the
presence of the write half (the two are set and cleared together), and
task counts match the three phases: connected with its reader running,
connected in the post-EOF window with one cleanup pending, or
disconnected with neither. -/
def ConnInv (s : ConnState) : Prop :=
  s.inner.write_half.isSome = s.inner.connected ∧
  (s.inner.connected = true →
    (s.readers = 1 ∧ s.pendingClear = 0) ∨ (s.readers = 0 ∧ s.pendingClear = 1)) ∧
  (s.inner.connected = false → s.readers = 0 ∧ s.pendingClear = 0)

theorem attempt_connection_success {ok : Nat → Bool} {a : Nat} (h : Nat) (st : InnerState)
    (hsucc : (connectBackoff ok).successAttempt = some a) :
    attempt_connection_with_backoff ok h st =
      { state := { st with write_half := some h, connected := true }
        result := .ok ()
        sleepsMs := (connectBackoff ok).sleepsMs
        readersSpawned := 1 } := by
  simp [attempt_connection_with_backoff, hsucc]

theorem attempt_connection_failure {ok : Nat → Bool} (h : Nat) (st : InnerState)
    (hsucc : (connectBackoff ok).successAttempt = none) :
    attempt_connection_with_backoff ok h st =
      { state := st
        result := .error (.connectionFailed (clientSocketPath st.vscode_pid))
        sleepsMs := (connectBackoff ok).sleepsMs
        readersSpawned := 0 } := by
  simp [attempt_connection_with_backoff, hsucc]

theorem clear_reconnect_success {ok : Nat → Bool} {a : Nat} (h : Nat) (st : InnerState)
    (hsucc : (connectBackoff ok).successAttempt = some a) :
    clear_connection_and_reconnect ok h st =
      { state := { st with write_half := some h, connected := true, pending_requests := [] }
        orphanCountLogged := st.pending_requests.length
        reconnectResult := .ok ()
        sleepsMs := (connectBackoff ok).sleepsMs
        readersSpawned := 1 } := by
  simp only [clear_connection_and_reconnect, attempt_connection_success h _ hsucc]
  simp [clearDeadConnectionState]

theorem clear_reconnect_failure {ok : Nat → Bool} (h : Nat) (st : InnerState)
    (hsucc : (connectBackoff ok).successAttempt = none) :
    clear_connection_and_reconnect ok h st =
      { state := clearDeadConnectionState st
        orphanCountLogged := st.pending_requests.length
        reconnectResult :=
          .error (.connectionFailed (clientSocketPath st.vscode_pid))
        sleepsMs := (connectBackoff ok).sleepsMs
        readersSpawned := 0 } := by
  simp only [clear_connection_and_reconnect, attempt_connection_failure h _ hsucc]
  simp [clearDeadConnectionState]

theorem stepConn_preserves {s s2 : ConnState} (hinv : ConnInv s) {e : ConnEvent}
    (hstep : stepConn s e = some s2) : ConnInv s2 := by
  obtain ⟨hwh, hcon, hdis⟩ := hinv
  cases e with
  | ensureConn ok h =>
      simp only [stepConn, Option.some.injEq] at hstep
      by_cases hc : s.inner.connected = true
      · rw [← hstep]
        simp only [ensure_connection, hc, if_true]
        exact ⟨by simpa [hc] using hwh, by simpa [hc] using hcon, by simp [hc]⟩
      · have hc' : s.inner.connected = false := by simpa using hc
        obtain ⟨hr0, hp0⟩ := hdis hc'
        rw [← hstep]
        simp only [ensure_connection, hc', Bool.false_eq_true, if_false]
        cases hsucc : (connectBackoff ok).successAttempt with
        | some a =>
            rw [attempt_connection_success h s.inner hsucc]
            refine ⟨rfl, fun _ => Or.inl ⟨by simp [hr0], hp0⟩, fun hf => by simp at hf⟩
        | none =>
            rw [attempt_connection_failure h s.inner hsucc]
            refine ⟨by simpa [hc'] using hwh, ?_, fun _ => by simp [hr0, hp0]⟩
            intro hf
            simp only at hf
            rw [hc'] at hf
            simp at hf
  | readerDies =>
      simp only [stepConn] at hstep
      by_cases hr : s.readers = 0
      · simp [hr] at hstep
      · simp only [hr, if_false, Option.some.injEq] at hstep
        have hcon' : s.inner.connected = true := by
          by_contra hnc
          have := hdis (by simpa using (Bool.not_eq_true _).mp hnc)
          exact hr this.1
        rcases hcon hcon' with ⟨h1, h0⟩ | ⟨h1, h0⟩
        · rw [← hstep]
          exact ⟨by simpa using hwh, fun _ => Or.inr (by simp [h1, h0]),
            fun hf => by rw [hcon'] at hf; simp at hf⟩
        · exact absurd h1 hr
  | runClear ok h =>
      simp only [stepConn] at hstep
      by_cases hp : s.pendingClear = 0
      · simp [hp] at hstep
      · simp only [hp, if_false, Option.some.injEq] at hstep
        have hcon' : s.inner.connected = true := by
          by_contra hnc
          have := hdis (by simpa using (Bool.not_eq_true _).mp hnc)
          exact hp this.2
        rcases hcon hcon' with ⟨h1, h0⟩ | ⟨h1, h0⟩
        · exact absurd h0 hp
        · rw [← hstep]
          cases hsucc : (connectBackoff ok).successAttempt with
          | some a =>
              rw [clear_reconnect_success h s.inner hsucc]
              refine ⟨rfl, fun _ => Or.inl ⟨by simp [h1], by simp [h0]⟩,
                fun hf => by simp at hf⟩
          | none =>
              rw [clear_reconnect_failure h s.inner hsucc]
              refine ⟨rfl, ?_, fun _ => by simp [h1, h0]⟩
              intro hf
              simp [clearDeadConnectionState] at hf

theorem runConn_preserves {s s2 : ConnState} (hinv : ConnInv s) {evs : List ConnEvent}
    (hrun : runConn s evs = some s2) : ConnInv s2 := by
  induction evs generalizing s with
  | nil =>
      simp only [runConn, Option.some.injEq] at hrun
      exact hrun ▸ hinv
  | cons e evs ih =>
      simp only [runConn] at hrun
      cases hstep : stepConn s e with
      | none => rw [hstep] at hrun; exact absurd hrun (by simp)
      | some smid =>
          rw [hstep] at hrun
          exact ih (stepConn_preserves hinv hstep) hrun

/-- Counterexample to C7 as stated: the state reached by a successful
connect followed by the reader observing EOF (before its spawned
cleanup has run) is reachable, has `connected == true`, a present
write handle, and zero reader tasks running — so "connected implies
exactly one reader task is running" fails. -/
theorem connected_without_reader_reachable :
    (runConn (initConnState 7 9) [.ensureConn (fun _ => true) 4, .readerDies] =
      some { inner := { newInner 7 9 with write_half := some 4, connected := true }
             readers := 0
             pendingClear := 1 }) ∧
    ({ inner := { newInner 7 9 with write_half := some 4, connected := true }
       readers := 0
       pendingClear := 1 } : ConnState).inner.connected = true ∧
    ({ inner := { newInner 7 9 with write_half := some 4, connected := true }
       readers := 0
       pendingClear := 1 } : ConnState).readers = 0 := by
  refine ⟨?_, rfl, rfl⟩
  decide

/-- C7 (amended): in every reachable state of the connection manager,
`connected` equals the presence of the write half (the two are set and
cleared together by the only two critical sections that touch them),
and `connected == true` implies exactly one reader task is running —
except in the transient window after the reader observed read error or
EOF and before its spawned cleanup has run, where no reader runs and
exactly one cleanup is pending. -/
theorem connected_invariant_amended (vscode_pid shell_pid : Nat) (s : ConnState)
    (evs : List ConnEvent)
    (hreach : runConn (initConnState vscode_pid shell_pid) evs = some s) :
    s.inner.write_half.isSome = s.inner.connected ∧
    (s.inner.connected = true →
      s.readers = 1 ∨ (s.readers = 0 ∧ s.pendingClear = 1)) := by
  have hinv0 : ConnInv (initConnState vscode_pid shell_pid) := by
    refine ⟨rfl, ?_, fun _ => ⟨rfl, rfl⟩⟩
    intro hfalse
    simp [initConnState, newInner] at hfalse
  have hinv := runConn_preserves hinv0 hreach
  exact ⟨hinv.1, fun hc => (hinv.2.1 hc).elim (fun ⟨a, _⟩ => Or.inl a)
    (fun ⟨a, b⟩ => Or.inr ⟨a, b⟩)⟩

/-- Concrete reachable state in the post-EOF window, used by the
invariant witness. -/
def postEOFState : ConnState :=
  { inner := { newInner 3 4 with write_half := some 8, connected := true }
    readers := 0
    pendingClear := 1 }

/-- Witness for C7 (amended): the invariant instantiated at the
reachable post-EOF state, with the reachability hypothesis discharged
by computation. -/
theorem connected_invariant_amended_witness :
    runConn (initConnState 3 4) [.ensureConn (fun _ => true) 8, .readerDies] =
      some postEOFState ∧
    postEOFState.inner.write_half.isSome = postEOFState.inner.connected ∧
    (postEOFState.inner.connected = true →
      postEOFState.readers = 1 ∨
        (postEOFState.readers = 0 ∧ postEOFState.pendingClear = 1)) := by
  have hreach : runConn (initConnState 3 4) [.ensureConn (fun _ => true) 8, .readerDies] =
      some postEOFState := by decide
  have main := connected_invariant_amended 3 4 postEOFState
    [.ensureConn (fun _ => true) 8, .readerDies] hreach
  exact ⟨hreach, main.1, main.2⟩

/-! ## Claim C9: reachability of the NotConnected branch

`present_review` and `get_selection` call `ensure_connection` before
writing; `send_log`, `send_marco`, `send_polo`, `send_goodbye` and
`send_create_synthetic_pr` build their message and call
`send_message_without_reply` → `write_message` with no prior
`ensure_connection` (see their bodies in `src/server/src/ipc.rs`). -/

/-- Write path of the non-test-mode `send_marco` (lines 296-311): no
`ensure_connection`, straight to `send_message_without_reply`. -/
def send_marco (st : InnerState) : Except IPCError Unit :=
  send_message_without_reply st

/-- Write path of the non-test-mode `send_polo` (lines 314-336). -/
def send_polo (st : InnerState) : Except IPCError Unit :=
  send_message_without_reply st

/-- Write path of the non-test-mode `send_goodbye` (lines 339-361). -/
def send_goodbye (st : InnerState) : Except IPCError Unit :=
  send_message_without_reply st

/-- IPC leg of the non-test-mode `send_log` (lines 248-291). -/
def send_log (st : InnerState) : Except IPCError Unit :=
  send_message_without_reply st

/-- Write path of the non-test-mode `send_create_synthetic_pr`
(lines 364-394). -/
def send_create_synthetic_pr (st : InnerState) : Except IPCError Unit :=
  send_message_without_reply st

/-- Counterexample to C9 as stated: `send_marco` is a public operation
of a non-test-mode communicator, and invoked on the state produced by
`IPCCommunicator::new` (no connection established, e.g. before
`initialize`, or after a disconnect whose background reconnect failed)
it reaches the `NotConnected` branch of `write_message`. -/
theorem send_marco_not_connected_reachable :
    send_marco (newInner 7 9) = .error .notConnected := by
  rfl

/-- C9 (amended): a write preceded by `ensure_connection` in the same
operation (`present_review`, `get_selection`) can never surface
`NotConnected` from any state satisfying the reachable-state invariant
that `connected` mirrors the write half; the fire-and-forget
operations (`send_log`, `send_marco`, `send_polo`, `send_goodbye`,
`send_create_synthetic_pr`) write without ensuring a connection, so
each of them surfaces `NotConnected` exactly when no write half is
present. -/
theorem not_connected_reachability (ok : Nat → Bool) (h : Nat) (st : InnerState)
    (hwh : st.write_half.isSome = st.connected) :
    (ensure_then_write ok h st).2 ≠ .error .notConnected ∧
    (st.write_half = none →
      send_marco st = .error .notConnected ∧
      send_polo st = .error .notConnected ∧
      send_goodbye st = .error .notConnected ∧
      send_log st = .error .notConnected ∧
      send_create_synthetic_pr st = .error .notConnected) ∧
    (∀ wh, st.write_half = some wh →
      send_marco st = .ok () ∧
      send_polo st = .ok () ∧
      send_goodbye st = .ok () ∧
      send_log st = .ok () ∧
      send_create_synthetic_pr st = .ok ()) := by
  refine ⟨?_, ?_, ?_⟩
  · unfold ensure_then_write ensure_connection
    by_cases hc : st.connected = true
    · simp only [hc, if_true]
      cases hwhs : st.write_half with
      | none => rw [hwhs] at hwh; rw [hc] at hwh; simp at hwh
      | some wh => simp [write_message, hwhs]
    · have hc' : st.connected = false := by simpa using hc
      simp only [hc', Bool.false_eq_true, if_false]
      cases hsucc : (connectBackoff ok).successAttempt with
      | some a =>
          rw [attempt_connection_success h st hsucc]
          simp [write_message]
      | none =>
          rw [attempt_connection_failure h st hsucc]
          simp
  · intro hnone
    refine ⟨?_, ?_, ?_, ?_, ?_⟩ <;>
      simp [send_marco, send_polo, send_goodbye, send_log, send_create_synthetic_pr,
        send_message_without_reply, write_message, hnone]
  · intro wh hsome
    refine ⟨?_, ?_, ?_, ?_, ?_⟩ <;>
      simp [send_marco, send_polo, send_goodbye, send_log, send_create_synthetic_pr,
        send_message_without_reply, write_message, hsome]

/-- Witness for C9 (amended) at the fresh state and at a connected
state. -/
theorem not_connected_reachability_witness :
    ((newInner 7 9).write_half.isSome = (newInner 7 9).connected) ∧
    (ensure_then_write (fun _ => true) 4 (newInner 7 9)).2 ≠ .error .notConnected ∧
    send_polo (newInner 7 9) = .error .notConnected := by
  have main := not_connected_reachability (fun _ => true) 4 (newInner 7 9) rfl
  exact ⟨rfl, main.1, (main.2.1 rfl).2.1⟩

/-! ## Claim C6: daemon fan-out (`handle_client`)

`handle_client` (lines 158-228 of `src/server/src/daemon.rs`) runs two
halves concurrently on one connection: the inbound half reads
newline-delimited lines, trims each (`line.trim()`), and publishes
non-empty results to the broadcast channel; the outbound half drains
its own subscription, writing each received message with a trailing
newline to the peer, skipping `Lagged` errors silently.  The
`tokio::sync::broadcast` channel (capacity 1000) is modelled as a
global message log plus a per-subscriber position: `send` appends and
never blocks; `recv` at a position more than `capacity` behind yields
`Lagged` and snaps the position forward to the oldest retained
message. -/

/-- ASCII White_Space test mirroring Rust `char::is_whitespace` on the
ASCII range (tab, LF, VT, FF, CR, space); the non-ASCII White_Space
code points are not modelled. -/
def rustIsWhitespace (c : Char) : Bool :=
  c == ' ' || (9 ≤ c.toNat && c.toNat ≤ 13)

/-- Rust `str::trim` on the character list: whitespace stripped from
both ends. -/
def trimChars (l : List Char) : List Char :=
  ((l.dropWhile rustIsWhitespace).reverse.dropWhile rustIsWhitespace).reverse

/-- Rust `str::trim` at the string level. -/
def rustTrim (s : String) : String :=
  String.mk (trimChars s.data)

/-- Inbound processing of one line read by `handle_client`: the line is
trimmed (`line.trim().to_string()`) and published only if the result is
non-empty. -/
def processClientLine (line : String) : Option String :=
  let message := rustTrim line
  if message = "" then none else some message

/-- The broadcast channel: log of all published messages and the
bounded backlog capacity (`broadcast::channel::<String>(1000)`). -/
structure Broadcast where
  log : List String
  capacity : Nat
deriving Repr, DecidableEq

/-- Channel capacity used by `run_message_bus`. -/
def DAEMON_CHANNEL_CAPACITY : Nat := 1000

/-- Publication (`tx.send`): appends to the log; never blocks and is
independent of any subscriber's position. -/
def publish (b : Broadcast) (msg : String) : Broadcast :=
  { b with log := b.log ++ [msg] }

/-- Inbound half of `handle_client` on one line. -/
def handle_client_inbound (b : Broadcast) (line : String) : Broadcast :=
  match processClientLine line with
  | some msg => publish b msg
  | none => b

/-- Outbound half of `handle_client`, drained to the end of the log
from subscription position `pos`: each received message is written to
the peer followed by a newline; a `Lagged` result snaps the position to
the oldest retained message (`log.length - capacity`) and continues
silently.  The fuel argument bounds the recursion; `drainFrom` supplies
enough for the position to reach the end of the log. -/
def drainAux (log : List String) (cap : Nat) : Nat → Nat → List String
  | _, 0 => []
  | pos, fuel + 1 =>
      if hpos : pos < log.length then
        if log.length - pos > cap then
          drainAux log cap (log.length - cap) fuel
        else
          (log.get ⟨pos, hpos⟩ ++ "\n") :: drainAux log cap (pos + 1) fuel
      else []

/-- Writes performed by the outbound half from position `pos` until it
has caught up with the log. -/
def drainFrom (log : List String) (cap : Nat) (pos : Nat) : List String :=
  drainAux log cap pos (log.length + 1)

theorem drainAux_in_sync (log : List String) (cap : Nat) :
    ∀ fuel pos, log.length - pos ≤ cap → log.length - pos ≤ fuel →
      drainAux log cap pos fuel = (log.drop pos).map (fun m => m ++ "\n") := by
  intro fuel
  induction fuel with
  | zero =>
      intro pos hcap hfuel
      have : log.length ≤ pos := by omega
      simp [drainAux, List.drop_eq_nil_of_le this]
  | succ fuel ih =>
      intro pos hcap hfuel
      by_cases hpos : pos < log.length
      · have hlag : ¬ log.length - pos > cap := by omega
        simp only [drainAux, dif_pos hpos, if_neg hlag]
        rw [ih (pos + 1) (by omega) (by omega)]
        have hpos2 : pos < (List.map (fun m => m ++ "\n") log).length := by
          simpa using hpos
        have hmap1 : List.map (fun m => m ++ "\n") (List.drop (pos + 1) log)
            = List.drop (pos + 1) (List.map (fun m => m ++ "\n") log) := by simp
        have hmap2 : List.map (fun m => m ++ "\n") (List.drop pos log)
            = List.drop pos (List.map (fun m => m ++ "\n") log) := by simp
        have hhead : log.get ⟨pos, hpos⟩ ++ "\n"
            = (List.map (fun m => m ++ "\n") log).get ⟨pos, hpos2⟩ := by simp
        rw [hmap1, hmap2, hhead, List.get_eq_getElem, List.getElem_cons_drop]
      · have : log.length ≤ pos := by omega
        simp [drainAux, dif_neg hpos, List.drop_eq_nil_of_le this]

/-- Counterexample to C6 as stated: the line "  hello \n" read from a
client is non-empty, yet what `handle_client` publishes is the trimmed
string "hello" — neither the line itself nor the line without its
newline delimiter — and the non-empty all-whitespace line " \n" is not
published at all. -/
theorem handle_client_not_verbatim :
    handle_client_inbound { log := [], capacity := 1000 } "  hello \x0a" =
      { log := ["hello"], capacity := 1000 } ∧
    ("hello" : String) ≠ "  hello \x0a" ∧
    ("hello" : String) ≠ "  hello " ∧
    handle_client_inbound { log := [], capacity := 1000 } " \x0a" =
      { log := [], capacity := 1000 } := by
  refine ⟨?_, by decide, by decide, ?_⟩ <;> rfl

/-- C6 (amended): every line a client writes is published after
trimming surrounding whitespace, and only if the trimmed result is
non-empty (so the published string is the line verbatim exactly when
the line carries no whitespace besides its newline delimiter); every
subscriber within the bounded backlog — including the sender, whose own
subscription is not filtered — has every published message written back
with a trailing newline; a subscriber lagging beyond the backlog
silently skips exactly the oldest overflowed messages and continues;
and publication appends to the log unconditionally, never blocked by
subscribers. -/
theorem handle_client_broadcast (line : String) (b : Broadcast) (pos : Nat) :
    (∀ msg, processClientLine line = some msg →
      msg = rustTrim line ∧ msg ≠ "" ∧ handle_client_inbound b line = publish b msg) ∧
    (processClientLine line = none →
      rustTrim line = "" ∧ handle_client_inbound b line = b) ∧
    (b.log.length - pos ≤ b.capacity →
      drainFrom b.log b.capacity pos = (b.log.drop pos).map (fun m => m ++ "\n")) ∧
    (b.log.length - pos > b.capacity →
      drainFrom b.log b.capacity pos =
        (b.log.drop (b.log.length - b.capacity)).map (fun m => m ++ "\n")) ∧
    (∀ msg, (publish b msg).log = b.log ++ [msg]) := by
  refine ⟨?_, ?_, ?_, ?_, fun _ => rfl⟩
  · intro msg hmsg
    simp only [processClientLine] at hmsg
    by_cases hempty : rustTrim line = ""
    · simp [hempty] at hmsg
    · simp only [if_neg hempty] at hmsg
      have hEq := Option.some.inj hmsg
      subst hEq
      refine ⟨rfl, hempty, ?_⟩
      unfold handle_client_inbound processClientLine
      simp [if_neg hempty]
  · intro hnone
    unfold processClientLine at hnone
    by_cases hempty : rustTrim line = ""
    · exact ⟨hempty, by unfold handle_client_inbound processClientLine; simp [hempty]⟩
    · simp [hempty] at hnone
  · intro hcap
    exact drainAux_in_sync b.log b.capacity (b.log.length + 1) pos hcap (by omega)
  · intro hlag
    have hpos : pos < b.log.length := by omega
    unfold drainFrom drainAux
    simp only [dif_pos hpos, if_pos hlag]
    exact drainAux_in_sync b.log b.capacity b.log.length (b.log.length - b.capacity)
      (by omega) (by omega)

/-- Witness for C6 (amended): a two-subscriber bus where client A
publishes "hi"; both A and B (positions 0) receive "hi\n"; and a
lagging subscriber on a capacity-1 bus skips the overflowed message. -/
theorem handle_client_broadcast_witness :
    processClientLine "hi\x0a" = some "hi" ∧
    drainFrom ["hi"] 1000 0 = ["hi\x0a"] ∧
    drainFrom ["a", "b", "c"] 1 0 = ["c\x0a"] := by
  have main := handle_client_broadcast "hi\x0a" { log := ["hi"], capacity := 1000 } 0
  have lag := handle_client_broadcast "x" { log := ["a", "b", "c"], capacity := 1 } 0
  refine ⟨rfl, ?_, ?_⟩
  · have := main.2.2.1 (by decide)
    simpa using this
  · have := lag.2.2.2.1 (by decide)
    simpa using this

/-! ## Claim C8: the serialized wire envelope

`write_message` writes `serde_json::to_string(&message)` followed by a
single `b"\n"` delimiter.  The compact serde serializer is embedded at
the character level: strings are quoted with `"`, `\`, and all control
characters below 0x20 escaped (`\b \t \n \f \r` or `\u00XX` with
lowercase hex), numbers are decimal, arrays and objects use the usual
bracket/comma/colon punctuation with no added whitespace.  Because
every newline inside field values is escaped, the serialized envelope
is a single line and the trailing delimiter is its only newline. -/

/-- Lowercase hexadecimal digit, as emitted by serde_json in `\u00XX`
escapes. -/
def hexDigit (n : Nat) : Char :=
  if n < 10 then Char.ofNat (48 + n) else Char.ofNat (87 + n)

/-- Escaping of one character inside a JSON string literal
(serde_json's escape table: quote, backslash, the five short control
escapes, `\u00XX` for the remaining control characters, everything
else verbatim). -/
def escapeChar (c : Char) : List Char :=
  if c = '"' then ['\\', '"']
  else if c = '\\' then ['\\', '\\']
  else if c.toNat = 8 then ['\\', 'b']
  else if c.toNat = 9 then ['\\', 't']
  else if c.toNat = 10 then ['\\', 'n']
  else if c.toNat = 12 then ['\\', 'f']
  else if c.toNat = 13 then ['\\', 'r']
  else if c.toNat < 32 then
    ['\\', 'u', '0', '0', hexDigit (c.toNat / 16), hexDigit (c.toNat % 16)]
  else [c]

/-- A JSON string literal: quoted and escaped. -/
def escapeString (s : String) : List Char :=
  '"' :: (s.data.map escapeChar).flatten ++ ['"']

/-- Decimal digit character. -/
def digitChar (d : Nat) : Char :=
  Char.ofNat (48 + d % 10)

/-- Decimal digits of a natural number (most significant first),
accumulator style with fuel. -/
def natCharsAux : Nat → Nat → List Char → List Char
  | 0, _, acc => acc
  | fuel + 1, n, acc =>
      if n < 10 then digitChar n :: acc
      else natCharsAux fuel (n / 10) (digitChar (n % 10) :: acc)

/-- Decimal representation of a natural number. -/
def natChars (n : Nat) : List Char :=
  natCharsAux (n + 1) n []

/-- Decimal representation of an integer. -/
def intChars (i : Int) : List Char :=
  if i < 0 then '-' :: natChars i.natAbs else natChars i.natAbs

mutual

/-- Compact serde_json serialization of a JSON value, as a character
list. -/
def serJson : Json → List Char
  | .null => "null".data
  | .bool true => "true".data
  | .bool false => "false".data
  | .num n => intChars n
  | .str s => escapeString s
  | .arr xs => '[' :: (serArr xs ++ [']'])
  | .obj fs => Char.ofNat 123 :: (serObj fs ++ [Char.ofNat 125])

/-- Comma-separated serialization of array elements. -/
def serArr : List Json → List Char
  | [] => []
  | [v] => serJson v
  | v :: v2 :: vs => serJson v ++ ',' :: serArr (v2 :: vs)

/-- Comma-separated serialization of object fields (`"key":value`). -/
def serObj : List (String × Json) → List Char
  | [] => []
  | [(k, v)] => escapeString k ++ ':' :: serJson v
  | (k, v) :: f2 :: fs => escapeString k ++ ':' :: serJson v ++ ',' :: serObj (f2 :: fs)

end

/-- The JSON object serde produces for an `IPCMessage` (fields in
declaration order, `message_type` renamed to `"type"` and serialized
by its snake_case wire name). -/
def ipcMessageJson (m : IPCMessage) : Json :=
  Json.obj
    [("shell_pid", Json.num m.shell_pid),
     ("type", Json.str (kindWireName m.message_type)),
     ("payload", m.payload),
     ("id", Json.str m.id)]

/-- The string `serde_json::to_string(&message)` produces. -/
def serializeIPCMessage (m : IPCMessage) : List Char :=
  serJson (ipcMessageJson m)

/-- The bytes `write_message` puts on the wire for one envelope: the
serialized JSON followed by the `b"\n"` delimiter. -/
def wireLine (m : IPCMessage) : List Char :=
  serializeIPCMessage m ++ ['\n']

/-- Request construction as done by each public operation: a freshly
generated UUID string becomes the correlation id (`Uuid::new_v4()`
modelled as an injective supply `gen` applied to a fresh token). -/
def mkRequest (gen : Nat → String) (fresh : Nat) (ty : IPCMessageType)
    (payload : Json) (shellPid : Nat) : IPCMessage :=
  { shell_pid := shellPid, message_type := ty, payload := payload, id := gen fresh }

theorem hexDigit_lt16_ne_nl {n : Nat} (h : n < 16) : hexDigit n ≠ '\n' := by
  interval_cases n <;> decide

theorem digitChar_ne_nl (d : Nat) : digitChar d ≠ '\n' := by
  unfold digitChar
  have h : d % 10 < 10 := Nat.mod_lt d (by decide)
  set r := d % 10 with hr
  interval_cases r <;> decide

theorem escapeChar_ne_nl (c : Char) : ∀ d ∈ escapeChar c, d ≠ '\n' := by
  intro d hd
  unfold escapeChar at hd
  split_ifs at hd with h1 h2 h3 h4 h5 h6 h7 h8
  · simp only [List.mem_cons, List.not_mem_nil, or_false] at hd
    rcases hd with rfl | rfl <;> decide
  · simp only [List.mem_cons, List.not_mem_nil, or_false] at hd
    rcases hd with rfl | rfl <;> decide
  · simp only [List.mem_cons, List.not_mem_nil, or_false] at hd
    rcases hd with rfl | rfl <;> decide
  · simp only [List.mem_cons, List.not_mem_nil, or_false] at hd
    rcases hd with rfl | rfl <;> decide
  · simp only [List.mem_cons, List.not_mem_nil, or_false] at hd
    rcases hd with rfl | rfl <;> decide
  · simp only [List.mem_cons, List.not_mem_nil, or_false] at hd
    rcases hd with rfl | rfl <;> decide
  · simp only [List.mem_cons, List.not_mem_nil, or_false] at hd
    rcases hd with rfl | rfl <;> decide
  · simp only [List.mem_cons, List.not_mem_nil, or_false] at hd
    have hq : c.toNat / 16 < 16 := by omega
    have hrem : c.toNat % 16 < 16 := Nat.mod_lt _ (by decide)
    rcases hd with rfl | rfl | rfl | rfl | rfl | rfl
    · decide
    · decide
    · decide
    · decide
    · exact hexDigit_lt16_ne_nl hq
    · exact hexDigit_lt16_ne_nl hrem
  · simp only [List.mem_cons, List.not_mem_nil, or_false] at hd
    subst hd
    intro hnl
    subst hnl
    exact h8 (by decide)

theorem escapeString_ne_nl (s : String) : ∀ d ∈ escapeString s, d ≠ '\n' := by
  intro d hd
  unfold escapeString at hd
  rcases List.mem_cons.mp hd with rfl | hd2
  · decide
  · rcases List.mem_append.mp hd2 with hj | hq
    · rcases List.mem_flatten.mp hj with ⟨l, hl, hdl⟩
      rcases List.mem_map.mp hl with ⟨c, _, rfl⟩
      exact escapeChar_ne_nl c d hdl
    · simp only [List.mem_cons, List.not_mem_nil, or_false] at hq
      subst hq
      decide

theorem natCharsAux_ne_nl : ∀ fuel n acc, (∀ d ∈ acc, d ≠ '\n') →
    ∀ d ∈ natCharsAux fuel n acc, d ≠ '\n' := by
  intro fuel
  induction fuel with
  | zero => intro n acc hacc d hd; exact hacc d hd
  | succ fuel ih =>
      intro n acc hacc d hd
      unfold natCharsAux at hd
      by_cases hn : n < 10
      · rw [if_pos hn] at hd
        rcases List.mem_cons.mp hd with rfl | hd2
        · exact digitChar_ne_nl n
        · exact hacc d hd2
      · rw [if_neg hn] at hd
        refine ih (n / 10) (digitChar (n % 10) :: acc) ?_ d hd
        intro e he
        rcases List.mem_cons.mp he with rfl | he2
        · exact digitChar_ne_nl (n % 10)
        · exact hacc e he2

theorem intChars_ne_nl (i : Int) : ∀ d ∈ intChars i, d ≠ '\n' := by
  intro d hd
  unfold intChars natChars at hd
  split_ifs at hd with hneg
  · rcases List.mem_cons.mp hd with rfl | hd2
    · decide
    · exact natCharsAux_ne_nl _ _ _ (fun e he => absurd he (List.not_mem_nil e)) d hd2
  · exact natCharsAux_ne_nl _ _ _ (fun e he => absurd he (List.not_mem_nil e)) d hd

mutual

theorem serJson_ne_nl : ∀ v : Json, ∀ d ∈ serJson v, d ≠ '\n'
  | .null => by
      intro d hd
      have hd2 : d ∈ ['n', 'u', 'l', 'l'] := hd
      simp only [List.mem_cons, List.not_mem_nil, or_false] at hd2
      rcases hd2 with rfl | rfl | rfl | rfl <;> decide
  | .bool true => by
      intro d hd
      have hd2 : d ∈ ['t', 'r', 'u', 'e'] := hd
      simp only [List.mem_cons, List.not_mem_nil, or_false] at hd2
      rcases hd2 with rfl | rfl | rfl | rfl <;> decide
  | .bool false => by
      intro d hd
      have hd2 : d ∈ ['f', 'a', 'l', 's', 'e'] := hd
      simp only [List.mem_cons, List.not_mem_nil, or_false] at hd2
      rcases hd2 with rfl | rfl | rfl | rfl | rfl <;> decide
  | .num n => fun d hd => intChars_ne_nl n d hd
  | .str s => fun d hd => escapeString_ne_nl s d hd
  | .arr xs => by
      intro d hd
      simp only [serJson] at hd
      rcases List.mem_cons.mp hd with rfl | hd2
      · decide
      · rcases List.mem_append.mp hd2 with h | h
        · exact serArr_ne_nl xs d h
        · simp only [List.mem_cons, List.not_mem_nil, or_false] at h
          subst h
          decide
  | .obj fs => by
      intro d hd
      simp only [serJson] at hd
      rcases List.mem_cons.mp hd with rfl | hd2
      · decide
      · rcases List.mem_append.mp hd2 with h | h
        · exact serObj_ne_nl fs d h
        · simp only [List.mem_cons, List.not_mem_nil, or_false] at h
          subst h
          decide

theorem serArr_ne_nl : ∀ xs : List Json, ∀ d ∈ serArr xs, d ≠ '\n'
  | [] => by
      intro d hd
      simp only [serArr] at hd
      exact absurd hd (List.not_mem_nil d)
  | [v] => by
      intro d hd
      simp only [serArr] at hd
      exact serJson_ne_nl v d hd
  | v :: v2 :: vs => by
      intro d hd
      simp only [serArr] at hd
      rcases List.mem_append.mp hd with h | h
      · exact serJson_ne_nl v d h
      · rcases List.mem_cons.mp h with rfl | h2
        · decide
        · exact serArr_ne_nl (v2 :: vs) d h2

theorem serObj_ne_nl : ∀ fs : List (String × Json), ∀ d ∈ serObj fs, d ≠ '\n'
  | [] => by
      intro d hd
      simp only [serObj] at hd
      exact absurd hd (List.not_mem_nil d)
  | [(k, v)] => by
      intro d hd
      simp only [serObj] at hd
      rcases List.mem_append.mp hd with h | h
      · exact escapeString_ne_nl k d h
      · rcases List.mem_cons.mp h with rfl | h2
        · decide
        · exact serJson_ne_nl v d h2
  | (k, v) :: f2 :: fs => by
      intro d hd
      simp only [serObj] at hd
      rcases List.mem_append.mp hd with h | h
      · rcases List.mem_append.mp h with ha | hb
        · exact escapeString_ne_nl k d ha
        · rcases List.mem_cons.mp hb with rfl | h2
          · decide
          · exact serJson_ne_nl v d h2
      · rcases List.mem_cons.mp h with rfl | h4
        · decide
        · exact serObj_ne_nl (f2 :: fs) d h4

end

/-- C8: every envelope put on the wire is the serde serialization of a
JSON object followed by exactly one newline delimiter; the serialized
object itself contains no newline character (so the envelope occupies
a single line), and it carries the kind discriminator as a string
under `"type"`, the correlation id as a string under `"id"`, the
arbitrary payload under `"payload"`, and the integer addressing tag
under `"shell_pid"`; ids produced from distinct fresh tokens of an
injective UUID supply are distinct (unique per request). -/
theorem envelope_wire_format (m : IPCMessage) (gen : Nat → String)
    (hinj : Function.Injective gen) :
    (∀ c ∈ serializeIPCMessage m, c ≠ '\n') ∧
    wireLine m = serializeIPCMessage m ++ ['\n'] ∧
    (∃ fs, ipcMessageJson m = Json.obj fs ∧
      jsonField fs "type" = some (Json.str (kindWireName m.message_type)) ∧
      jsonField fs "id" = some (Json.str m.id) ∧
      jsonField fs "payload" = some m.payload ∧
      jsonField fs "shell_pid" = some (Json.num (m.shell_pid : Int))) ∧
    (∀ n1 n2 ty1 ty2 p1 p2 sp1 sp2, n1 ≠ n2 →
      (mkRequest gen n1 ty1 p1 sp1).id ≠ (mkRequest gen n2 ty2 p2 sp2).id) := by
  refine ⟨?_, rfl, ?_, ?_⟩
  · intro c hc
    exact serJson_ne_nl (ipcMessageJson m) c hc
  · refine ⟨_, rfl, ?_, ?_, ?_, ?_⟩ <;>
      simp [jsonField, alLookup]
  · intro n1 n2 ty1 ty2 p1 p2 sp1 sp2 hne heq
    simp only [mkRequest] at heq
    exact hne (hinj heq)

/-- An injective stand-in for the UUID supply, used by the witness. -/
def uuidSupply (n : Nat) : String :=
  String.mk (List.replicate n 'a')

theorem uuidSupply_injective : Function.Injective uuidSupply := by
  intro a b hab
  have h2 : (List.replicate a 'a').length = (List.replicate b 'a').length := by
    have := congrArg (fun s => s.data.length) hab
    simpa [uuidSupply] using this
  simpa using h2

/-- Witness for C8: a concrete Marco envelope serializes to the
expected single-line JSON object and its newline-freedom follows from
the theorem. -/
theorem envelope_wire_format_witness :
    Function.Injective uuidSupply ∧
    (∀ c ∈ serializeIPCMessage (mkRequest uuidSupply 1 .marco (Json.obj []) 0), c ≠ '\n') ∧
    serializeIPCMessage (mkRequest uuidSupply 1 .marco (Json.obj []) 0) =
      "\x7b\"shell_pid\":0,\"type\":\"marco\",\"payload\":\x7b\x7d,\"id\":\"a\"\x7d".data := by
  refine ⟨uuidSupply_injective,
    (envelope_wire_format (mkRequest uuidSupply 1 .marco (Json.obj []) 0)
      uuidSupply uuidSupply_injective).1, ?_⟩
  decide

end Dialectic
